import Mathlib

/-!
Shallow embedding of the DNS forwarding proxy (Rust sources under src/):
the message cache (src/cache/mod.rs), the token-bucket rate limiter and the
middleware pipeline (src/middleware/), and the upstream resolver with
failover (src/resolver/mod.rs).

Modelling conventions:
- `Instant` and `Duration` are modelled as `Nat` nanoseconds; the current
  time is passed explicitly to every operation that reads the clock.
- Rust's `HashMap` is modelled as an association list with unique keys;
  `insert` overwrites, iteration order (used only by the arbitrary-eviction
  `keys().next()`) is the list order.
- The floating-point expression
  `(elapsed.as_secs_f64() * refill_rate as f64) as u32` is modelled by the
  exact integer floor `elapsed_ns * refill_rate / 10^9`.
- Socket I/O is abstracted by an explicit event/outcome parameter; the body
  of each function is otherwise a direct transcription.
-/

set_option maxRecDepth 100000

namespace DnsProxy

/-! ## MD5 (the `md5` crate, used by `DnsCache::generate_cache_key`) -/

namespace Md5

/-- Truncate to a 32-bit word. -/
def w32 (n : Nat) : Nat := n % 4294967296

/-- Left rotation within a 32-bit word. -/
def rotl (x n : Nat) : Nat :=
  (((x % 4294967296) <<< n) % 4294967296) ||| ((x % 4294967296) >>> (32 - n))

/-- Per-round shift amounts. -/
def shiftTable : Array Nat :=
  #[7, 12, 17, 22, 7, 12, 17, 22, 7, 12, 17, 22, 7, 12, 17, 22,
    5, 9, 14, 20, 5, 9, 14, 20, 5, 9, 14, 20, 5, 9, 14, 20,
    4, 11, 16, 23, 4, 11, 16, 23, 4, 11, 16, 23, 4, 11, 16, 23,
    6, 10, 15, 21, 6, 10, 15, 21, 6, 10, 15, 21, 6, 10, 15, 21]

/-- Per-round additive constants, `floor(2^32 * abs(sin(i+1)))`. -/
def sineTable : Array Nat :=
  #[0xd76aa478, 0xe8c7b756, 0x242070db, 0xc1bdceee,
    0xf57c0faf, 0x4787c62a, 0xa8304613, 0xfd469501,
    0x698098d8, 0x8b44f7af, 0xffff5bb1, 0x895cd7be,
    0x6b901122, 0xfd987193, 0xa679438e, 0x49b40821,
    0xf61e2562, 0xc040b340, 0x265e5a51, 0xe9b6c7aa,
    0xd62f105d, 0x02441453, 0xd8a1e681, 0xe7d3fbc8,
    0x21e1cde6, 0xc33707d6, 0xf4d50d87, 0x455a14ed,
    0xa9e3e905, 0xfcefa3f8, 0x676f02d9, 0x8d2a4c8a,
    0xfffa3942, 0x8771f681, 0x6d9d6122, 0xfde5380c,
    0xa4beea44, 0x4bdecfa9, 0xf6bb4b60, 0xbebfbc70,
    0x289b7ec6, 0xeaa127fa, 0xd4ef3085, 0x04881d05,
    0xd9d4d039, 0xe6db99e5, 0x1fa27cf8, 0xc4ac5665,
    0xf4292244, 0x432aff97, 0xab9423a7, 0xfc93a039,
    0x655b59c3, 0x8f0ccc92, 0xffeff47d, 0x85845dd1,
    0x6fa87e4f, 0xfe2ce6e0, 0xa3014314, 0x4e0811a1,
    0xf7537e82, 0xbd3af235, 0x2ad7d2bb, 0xeb86d391]

/-- Group a byte list into little-endian 32-bit words. -/
def leWords : List Nat → List Nat
  | b0 :: b1 :: b2 :: b3 :: rest =>
      (b0 + 256 * (b1 + 256 * (b2 + 256 * b3))) :: leWords rest
  | _ => []

/-- The `n` low-order bytes of a number, little-endian. -/
def leBytes : Nat → Nat → List Nat
  | 0, _ => []
  | k + 1, v => v % 256 :: leBytes k (v / 256)

/-- MD5 padding: a 0x80 byte, zeros to 56 mod 64, then the 64-bit LE bit length. -/
def padMessage (msg : List Nat) : List Nat :=
  let bitLen := (8 * msg.length) % (2 ^ 64)
  let zeros := (119 - msg.length % 64) % 64
  msg ++ 0x80 :: List.replicate zeros 0 ++ leBytes 8 bitLen

/-- One of the 64 mixing rounds over state (a, b, c, d). -/
def round (m : List Nat) (st : Nat × Nat × Nat × Nat) (i : Nat) :
    Nat × Nat × Nat × Nat :=
  let (a, b, c, d) := st
  let fg : Nat × Nat :=
    if i < 16 then ((b &&& c) ||| ((b ^^^ 0xffffffff) &&& d), i)
    else if i < 32 then ((d &&& b) ||| ((d ^^^ 0xffffffff) &&& c), (5 * i + 1) % 16)
    else if i < 48 then (b ^^^ c ^^^ d, (3 * i + 5) % 16)
    else (c ^^^ (b ||| (d ^^^ 0xffffffff)), (7 * i) % 16)
  let f := w32 (fg.1 + a + sineTable.getD i 0 + m.getD fg.2 0)
  (d, w32 (b + rotl f (shiftTable.getD i 0)), b, c)

/-- Process one 64-byte chunk. -/
def processChunk (st : Nat × Nat × Nat × Nat) (chunk : List Nat) :
    Nat × Nat × Nat × Nat :=
  let m := leWords chunk
  let (a, b, c, d) := (List.range 64).foldl (round m) st
  (w32 (st.1 + a), w32 (st.2.1 + b), w32 (st.2.2.1 + c), w32 (st.2.2.2 + d))

/-- Split into 64-byte chunks; the fuel argument bounds the recursion and is
instantiated with the list length (each step consumes 64 bytes). -/
def splitChunks : Nat → List Nat → List (List Nat)
  | 0, _ => []
  | fuel + 1, l => if l.isEmpty then [] else l.take 64 :: splitChunks fuel (l.drop 64)

/-- The 16-byte MD5 digest of a byte sequence. -/
def digestBytes (msg : List Nat) : List Nat :=
  let padded := padMessage msg
  let (a, b, c, d) :=
    (splitChunks padded.length padded).foldl processChunk
      (0x67452301, 0xefcdab89, 0x98badcfe, 0x10325476)
  leBytes 4 a ++ leBytes 4 b ++ leBytes 4 c ++ leBytes 4 d

/-- A nibble as a lowercase hex character. -/
def hexChar (n : Nat) : Char :=
  if n < 10 then Char.ofNat (48 + n) else Char.ofNat (87 + n)

/-- A byte as two lowercase hex characters. -/
def byteHex (b : Nat) : String := String.mk [hexChar (b / 16), hexChar (b % 16)]

/-- The lowercase-hex MD5 digest, as printed by `format!("{:x}", md5::compute(q))`. -/
def hexDigest (msg : List Nat) : String := String.join ((digestBytes msg).map byteHex)

end Md5

/-! ## Message cache (src/cache/mod.rs) -/

/-- The `pub type DnsMessage = Vec<u8>` — an opaque byte sequence. -/
def DnsMessage : Type := List Nat

/-- One second in the nanosecond time model (`Duration::from_secs(1)`). -/
def nsPerSec : Nat := 1000000000

/-- The `CacheEntry`: response bytes, insertion `Instant`, effective TTL `Duration`. -/
structure CacheEntry where
  response : List Nat
  created_at : Nat
  ttl : Nat
deriving Repr, DecidableEq

/-- The `CacheEntry::is_expired`: `self.created_at.elapsed() > self.ttl`.
`elapsed()` is `now - created_at` on the monotone clock. -/
def CacheEntry.is_expired (e : CacheEntry) (now : Nat) : Bool :=
  now - e.created_at > e.ttl

/-- The `DnsCache`: the shared `HashMap<String, CacheEntry>` is modelled as an
association list with unique keys; the `RwLock` is implicit in the explicit
state passing. `min_ttl`/`max_ttl` are in nanoseconds
(`Duration::from_secs(config.ttl_min)` etc.). -/
structure DnsCache where
  enabled : Bool
  cache : List (String × CacheEntry)
  max_size : Nat
  min_ttl : Nat
  max_ttl : Nat
deriving Repr, DecidableEq

/-- The `DnsCache::generate_cache_key`: `format!("\x7b:x\x7d", md5::compute(query))`. -/
def generate_cache_key (query : List Nat) : String := Md5.hexDigest query

/-- The `HashMap::insert`: overwrite any entry with the same key, else add one. -/
def mapInsert (k : String) (v : CacheEntry) (m : List (String × CacheEntry)) :
    List (String × CacheEntry) :=
  (k, v) :: m.filter (fun p => p.1 ≠ k)

/-- The `HashMap::get`: the entry stored under a key, if any. -/
def mapFind (k : String) : List (String × CacheEntry) → Option CacheEntry
  | [] => none
  | p :: rest => if p.1 = k then some p.2 else mapFind k rest

/-- The `DnsCache::get`: disabled ⇒ `None`; else look the key up and return a
copy of a live entry; an expired entry is a miss (and is not removed — the
function holds only the read lock and returns the state unchanged). -/
def DnsCache.get (c : DnsCache) (query : List Nat) (now : Nat) :
    Option (List Nat) :=
  if !c.enabled then none
  else
    match mapFind (generate_cache_key query) c.cache with
    | some entry => if !(entry.is_expired now) then some entry.response else none
    | none => none

/-- The `DnsCache::cleanup_cache`: remove every expired entry. -/
def cleanup_cache (m : List (String × CacheEntry)) (now : Nat) :
    List (String × CacheEntry) :=
  m.filter (fun p => !(p.2.is_expired now))

/-- The capacity block at the top of `DnsCache::put`: when at capacity,
sweep expired entries, and if still at capacity remove the entry under
`keys().next()` (an arbitrary entry — modelled as the list head). -/
def evictForCapacity (m : List (String × CacheEntry)) (max_size now : Nat) :
    List (String × CacheEntry) :=
  if m.length ≥ max_size then
    let swept := cleanup_cache m now
    if swept.length ≥ max_size then
      match swept with
      | [] => ([] : List (String × CacheEntry))
      | _ :: rest => rest
    else swept
  else m

/-- The TTL computed by `DnsCache::put`:
`Duration::from_secs(hint).max(self.min_ttl).min(self.max_ttl)` when a hint
is present, else `min_ttl`. -/
def DnsCache.effective_ttl (c : DnsCache) (ttl_hint : Option Nat) : Nat :=
  match ttl_hint with
  | some hint => min (max (hint * nsPerSec) c.min_ttl) c.max_ttl
  | none => c.min_ttl

/-- The `DnsCache::put`: disabled ⇒ no-op; else run the capacity block, compute
the effective TTL, and insert the entry with the current timestamp. -/
def DnsCache.put (c : DnsCache) (query : List Nat) (response : List Nat)
    (ttl_hint : Option Nat) (now : Nat) : DnsCache :=
  if !c.enabled then c
  else
    let key := generate_cache_key query
    let m := evictForCapacity c.cache c.max_size now
    let ttl := c.effective_ttl ttl_hint
    { c with cache := mapInsert key ⟨response, now, ttl⟩ m }

/-- The `DnsCache::cleanup`: disabled ⇒ no-op; else sweep all expired entries. -/
def DnsCache.cleanup (c : DnsCache) (now : Nat) : DnsCache :=
  if !c.enabled then c
  else { c with cache := cleanup_cache c.cache now }

/-- The `DnsCache::clear`: disabled ⇒ no-op; else remove everything. -/
def DnsCache.clear (c : DnsCache) : DnsCache :=
  if !c.enabled then c else { c with cache := [] }

/-- The `CacheStats` as computed by `DnsCache::stats` (full scan). -/
structure CacheStats where
  total_entries : Nat
  expired_entries : Nat
  active_entries : Nat
  max_size : Nat
deriving Repr, DecidableEq

/-- The `DnsCache::stats`. -/
def DnsCache.stats (c : DnsCache) (now : Nat) : CacheStats :=
  let total := c.cache.length
  let expired := (c.cache.filter (fun p => p.2.is_expired now)).length
  ⟨total, expired, total - expired, c.max_size⟩

/-! ## Rate limiter (src/middleware/rate_limit.rs) -/

/-- The `RateLimitBucket`: token count, last refill `Instant` (ns), capacity,
refill rate in tokens per second. -/
structure RateLimitBucket where
  tokens : Nat
  last_refill : Nat
  max_tokens : Nat
  refill_rate : Nat
deriving Repr, DecidableEq

/-- The `RateLimitBucket::new`: the bucket starts full, stamped with `Instant::now()`. -/
def RateLimitBucket.new (max_tokens refill_rate now : Nat) : RateLimitBucket :=
  ⟨max_tokens, now, max_tokens, refill_rate⟩

/-- The `RateLimitBucket::refill`: add `floor(elapsed_seconds * refill_rate)`
whole tokens, capped at capacity; `last_refill` advances only when the
number of tokens to add is positive. The `f64` product in the source is
modelled by the exact floor `elapsed_ns * refill_rate / nsPerSec`. -/
def RateLimitBucket.refill (b : RateLimitBucket) (now : Nat) : RateLimitBucket :=
  let elapsed := now - b.last_refill
  let tokens_to_add := elapsed * b.refill_rate / nsPerSec
  if tokens_to_add > 0 then
    { b with tokens := min (b.tokens + tokens_to_add) b.max_tokens,
             last_refill := now }
  else b

/-- The `RateLimitBucket::try_consume`: refill, then consume one token when any
remain; returns whether the request is admitted, with the updated bucket. -/
def RateLimitBucket.try_consume (b : RateLimitBucket) (now : Nat) :
    Bool × RateLimitBucket :=
  let b := b.refill now
  if b.tokens > 0 then (true, { b with tokens := b.tokens - 1 })
  else (false, b)

/-- The `try_consume` iterated `n` times at one instant sequence, collecting the
admission outcomes in order. -/
def consumeRun (b : RateLimitBucket) (now : Nat) :
    Nat → List Bool × RateLimitBucket
  | 0 => ([], b)
  | n + 1 =>
    let (ok, b1) := b.try_consume now
    let (rest, b2) := consumeRun b1 now n
    (ok :: rest, b2)

/-- The `RateLimitMiddleware` state: the bucket map (client address → bucket,
modelled as an association list over abstract addresses) plus configuration. -/
structure RateLimitState where
  enabled : Bool
  buckets : List (Nat × RateLimitBucket)
  max_tokens : Nat
  refill_rate : Nat
deriving Repr, DecidableEq

/-- Bucket lookup in the map. -/
def bucketFind (addr : Nat) : List (Nat × RateLimitBucket) → Option RateLimitBucket
  | [] => none
  | p :: rest => if p.1 = addr then some p.2 else bucketFind addr rest

/-- Bucket map update (the entry exists after `entry(..).or_insert_with`). -/
def bucketStore (addr : Nat) (b : RateLimitBucket) :
    List (Nat × RateLimitBucket) → List (Nat × RateLimitBucket)
  | [] => [(addr, b)]
  | p :: rest => if p.1 = addr then (addr, b) :: rest else p :: bucketStore addr b rest

/-- The `RateLimitMiddleware::check_rate_limit`: disabled ⇒ always admit; else
fetch or lazily create the client's bucket (created full) and `try_consume`. -/
def check_rate_limit (s : RateLimitState) (client_addr : Nat) (now : Nat) :
    Bool × RateLimitState :=
  if !s.enabled then (true, s)
  else
    let bucket :=
      match bucketFind client_addr s.buckets with
      | some b => b
      | none => RateLimitBucket.new s.max_tokens s.refill_rate now
    let (ok, bucket) := bucket.try_consume now
    (ok, { s with buckets := bucketStore client_addr bucket s.buckets })

/-! ## Middleware pipeline (src/middleware/mod.rs, logging.rs, metrics.rs) -/

/-- The `MiddlewareError`. -/
inductive MiddlewareError
  | RateLimited
  | Blocked
  | InternalError (msg : String)
deriving Repr, DecidableEq

/-- The `MiddlewareResult = Result<Option<DnsMessage>, MiddlewareError>`:
`ok none` = Continue, `ok (some r)` = ShortCircuit(r), `error e` = Rejected. -/
abbrev MiddlewareResult : Type := Except MiddlewareError (Option (List Nat))

deriving instance DecidableEq for Except

/-- Observable `tracing` output of a stage, for stating what a stage logged. -/
inductive LogEvent
  | request (client : Nat) (size : Nat)
  | rateLimited (client : Nat)
deriving Repr, DecidableEq

/-- The `MetricsMiddleware` counters. -/
structure MetricsCounters where
  total_requests : Nat
  total_responses : Nat
  blocked_requests : Nat
  rate_limited_requests : Nat
deriving Repr, DecidableEq

/-- A pipeline stage together with its privately owned state: the three
built-in `Middleware` implementations. -/
inductive Stage
  | logging (enabled : Bool)
  | metrics (enabled : Bool) (counters : MetricsCounters)
  | rateLimit (state : RateLimitState)
deriving Repr, DecidableEq

/-- The `Middleware::handle_request` for each stage: result, updated stage
state, and emitted log events.
- Logging: logs client address and message length, always continues.
- Metrics: increments `total_requests` when enabled, always continues.
- RateLimit: admits ⇒ continue; else `Err(RateLimited)` (after a warning). -/
def Stage.handle_request (st : Stage) (request : List Nat) (client_addr : Nat)
    (now : Nat) : MiddlewareResult × Stage × List LogEvent :=
  match st with
  | .logging enabled =>
      (.ok none, .logging enabled,
        if enabled then [.request client_addr request.length] else [])
  | .metrics enabled counters =>
      (.ok none,
       .metrics enabled
         (if enabled then { counters with total_requests := counters.total_requests + 1 }
          else counters), [])
  | .rateLimit s =>
      let (ok, s1) := check_rate_limit s client_addr now
      if ok then (.ok none, .rateLimit s1, [])
      else (.error .RateLimited, .rateLimit s1, [.rateLimited client_addr])

/-- The `MiddlewarePipeline::handle_request`: stages run in registration order;
the first `Ok(Some(..))` or `Err(..)` stops evaluation and propagates;
stages after the stopping one are left untouched. -/
def pipeline_handle_request (stages : List Stage) (request : List Nat)
    (client_addr : Nat) (now : Nat) :
    MiddlewareResult × List Stage × List LogEvent :=
  match stages with
  | [] => (.ok none, [], [])
  | st :: rest =>
    let (res, st1, ev) := st.handle_request request client_addr now
    match res with
    | .ok none =>
        let (res2, rest2, ev2) := pipeline_handle_request rest request client_addr now
        (res2, st1 :: rest2, ev ++ ev2)
    | .ok (some response) => (.ok (some response), st1 :: rest, ev)
    | .error e => (.error e, st1 :: rest, ev)

/-! ## Resolver (src/resolver/mod.rs) -/

/-- The `Protocol` (src/config/mod.rs). -/
inductive Protocol
  | udp
  | tcp
  | dot
  | doh
deriving Repr, DecidableEq

/-- The `UpstreamConfig` (src/config/mod.rs); the socket address is an abstract
identifier. -/
structure UpstreamConfig where
  name : String
  addr : Nat
  protocol : Protocol
  priority : Nat
  timeout : Nat
deriving Repr, DecidableEq

/-- The `ResolverError`. -/
inductive ResolverError
  | AllUpstreamsUnavailable
  | NetworkError (msg : String)
  | Timeout
  | UnsupportedProtocol
deriving Repr, DecidableEq

/-- The `DnsResolver`: the ordered upstream list and the rotating cursor
(`current_upstream`), shared across requests behind one lock. -/
structure DnsResolver where
  upstreams : List UpstreamConfig
  current_upstream : Nat
deriving Repr, DecidableEq

/-- The `DnsResolver::new`: cursor starts at 0. -/
def DnsResolver.new (upstreams : List UpstreamConfig) : DnsResolver :=
  ⟨upstreams, 0⟩

/-- The socket I/O outcome of one attempt against one upstream within this
request cycle — what `query_udp` / `query_tcp` would return. -/
def Network : Type := UpstreamConfig → Except ResolverError (List Nat)

/-- The `DnsResolver::query_upstream`: dispatch on the transport; the encrypted
transports fail immediately with `UnsupportedProtocol`. -/
def query_upstream (net : Network) (u : UpstreamConfig) :
    Except ResolverError (List Nat) :=
  match u.protocol with
  | .udp => net u
  | .tcp => net u
  | .dot => .error .UnsupportedProtocol
  | .doh => .error .UnsupportedProtocol

/-- The body of `DnsResolver::resolve`: `fuel` counts the remaining loop
iterations of `for _ in 0..len`. Returns the result, the final resolver
state, and the trace of visited upstream indices (one per attempt).
`none` models the index panic of `self.upstreams[self.current_upstream]`,
unreachable whenever the cursor is within bounds. -/
def resolveLoop (net : Network) :
    DnsResolver → Nat →
    Option (Except ResolverError (List Nat) × DnsResolver × List Nat)
  | r, 0 => some (.error .AllUpstreamsUnavailable, r, [])
  | r, fuel + 1 =>
    match r.upstreams.get? r.current_upstream with
    | none => none
    | some u =>
      match query_upstream net u with
      | .ok response => some (.ok response, r, [r.current_upstream])
      | .error _ =>
        let r1 : DnsResolver :=
          { r with current_upstream := (r.current_upstream + 1) % r.upstreams.length }
        match resolveLoop net r1 fuel with
        | none => none
        | some (res, rf, trace) => some (res, rf, r.current_upstream :: trace)

/-- The `DnsResolver::resolve`: try up to `upstreams.len()` attempts; on success
return the response with the cursor unchanged, on failure advance the cursor
modulo the list length; exhaustion yields `AllUpstreamsUnavailable`. -/
def DnsResolver.resolve (r : DnsResolver) (net : Network) :
    Option (Except ResolverError (List Nat) × DnsResolver × List Nat) :=
  resolveLoop net r r.upstreams.length

/-- What arrives on the ephemeral UDP socket before the timeout. -/
inductive UdpRecvEvent
  | datagram (bytes : List Nat) (src : Nat)
  | timeout
  | ioError (msg : String)
deriving Repr, DecidableEq

/-- The `recv_from` into a fixed buffer: the kernel delivers at most
`buffer.length` bytes of the datagram and reports how many were written. -/
def recvIntoBuffer (buffer incoming : List Nat) : List Nat × Nat :=
  let n := min incoming.length buffer.length
  (incoming.take n ++ buffer.drop n, n)

/-- The `DnsResolver::query_udp`: allocate a 512-byte buffer, receive one
datagram, `truncate` the buffer to the received length and return it
verbatim; a timeout maps to `Timeout`, a socket error to `NetworkError`.
The received datagram's source address and contents are not inspected. -/
def query_udp (_upstream : UpstreamConfig) (_query : List Nat)
    (ev : UdpRecvEvent) : Except ResolverError (List Nat) :=
  match ev with
  | .datagram bytes _src =>
      let buffer := List.replicate 512 0
      let (buf, len) := recvIntoBuffer buffer bytes
      .ok (buf.take len)
  | .timeout => .error .Timeout
  | .ioError msg => .error (.NetworkError msg)

/-! ## Helper lemmas about the cache map -/

theorem mapFind_mapInsert_self (k : String) (v : CacheEntry)
    (m : List (String × CacheEntry)) : mapFind k (mapInsert k v m) = some v := by
  simp [mapInsert, mapFind]

theorem mapFind_eq_none (k : String) (m : List (String × CacheEntry))
    (h : ∀ p ∈ m, p.1 ≠ k) : mapFind k m = none := by
  induction m with
  | nil => rfl
  | cons p rest ih =>
    rw [mapFind, if_neg (h p (by simp))]
    exact ih fun q hq => h q (by simp [hq])

theorem mapFind_cleanup_of_expired (m : List (String × CacheEntry)) (k : String)
    (e : CacheEntry) (now : Nat)
    (hnd : (m.map Prod.fst).Nodup)
    (hf : mapFind k m = some e)
    (he : e.is_expired now = true) :
    mapFind k (cleanup_cache m now) = none := by
  induction m with
  | nil => simp [mapFind] at hf
  | cons p rest ih =>
    simp only [List.map_cons, List.nodup_cons] at hnd
    by_cases hk : p.1 = k
    · rw [mapFind, if_pos hk] at hf
      have hpe : p.2.is_expired now = true := by
        cases hf; exact he
      unfold cleanup_cache
      rw [List.filter_cons, if_neg (by simp [hpe])]
      exact mapFind_eq_none k _ fun q hq => by
        have hqm : q.1 ∈ rest.map Prod.fst :=
          List.mem_map_of_mem Prod.fst (List.mem_of_mem_filter hq)
        intro hqk
        apply hnd.1
        rw [hk, ← hqk]
        exact hqm
    · rw [mapFind, if_neg hk] at hf
      have ihr := ih hnd.2 hf
      unfold cleanup_cache at ihr ⊢
      rw [List.filter_cons]
      split
      · rw [mapFind, if_neg hk]; exact ihr
      · exact ihr

/-- A fixed small cache configuration (enabled, max 10 entries, TTL range
60s–3600s), used to instantiate the cache theorems. -/
def cacheA : DnsCache := ⟨true, [], 10, 60 * nsPerSec, 3600 * nsPerSec⟩

/-- C1: with caching enabled, `put(q, r, ttlHint)` followed by `get(q)`
returns bytes identical to `r`, provided the elapsed time since the put is
less than the effective TTL (no other operation intervenes between the two
calls, so no eviction can occur). -/
theorem put_then_get_roundtrip (c : DnsCache) (q r : List Nat)
    (hint : Option Nat) (tput tget : Nat)
    (hen : c.enabled = true)
    (hfresh : tget - tput < c.effective_ttl hint) :
    (c.put q r hint tput).get q tget = some r := by
  have hle : ¬ (tget - tput > c.effective_ttl hint) := by omega
  simp [DnsCache.put, DnsCache.get, hen, mapFind_mapInsert_self,
    CacheEntry.is_expired, hle]

theorem put_then_get_roundtrip_witness :
    cacheA.enabled = true ∧
    nsPerSec - 0 < cacheA.effective_ttl none ∧
    (cacheA.put [1] [9, 9] none 0).get [1] nsPerSec = some [9, 9] :=
  ⟨rfl, by decide,
    put_then_get_roundtrip cacheA [1] [9, 9] none 0 nsPerSec rfl (by decide)⟩

/-- The `clamp`, following the spec's words: `clamp(ttlHint, min_ttl, max_ttl)`
pins a value into `[lo, hi]`. -/
def clamp (x lo hi : Nat) : Nat := if x < lo then lo else if hi < x then hi else x

/-- C3: the TTL stored by `put` equals `clamp(ttlHint, min_ttl, max_ttl)`
when the hint is present and `min_ttl` when absent, so it always lies
within `[min_ttl, max_ttl]`, assuming `min_ttl ≤ max_ttl`. -/
theorem put_ttl_clamped (c : DnsCache) (q r : List Nat) (hint : Option Nat)
    (now : Nat) (hen : c.enabled = true) (hrange : c.min_ttl ≤ c.max_ttl) :
    mapFind (generate_cache_key q) (c.put q r hint now).cache
      = some ⟨r, now, c.effective_ttl hint⟩ ∧
    c.effective_ttl hint
      = (match hint with
         | some h => clamp (h * nsPerSec) c.min_ttl c.max_ttl
         | none => c.min_ttl) ∧
    c.min_ttl ≤ c.effective_ttl hint ∧
    c.effective_ttl hint ≤ c.max_ttl := by
  refine ⟨by simp [DnsCache.put, hen, mapFind_mapInsert_self], ?_, ?_, ?_⟩
  · cases hint with
    | none => rfl
    | some h =>
      simp only [DnsCache.effective_ttl, clamp]
      split_ifs <;> omega
  · cases hint with
    | none => exact Nat.le_refl _
    | some h => simp only [DnsCache.effective_ttl]; omega
  · cases hint with
    | none => exact hrange
    | some h => simp only [DnsCache.effective_ttl]; omega

theorem put_ttl_clamped_witness :
    cacheA.enabled = true ∧
    cacheA.min_ttl ≤ cacheA.max_ttl ∧
    (mapFind (generate_cache_key [1]) (cacheA.put [1] [9] (some 10) 0).cache
        = some ⟨[9], 0, cacheA.effective_ttl (some 10)⟩ ∧
      cacheA.effective_ttl (some 10)
        = clamp (10 * nsPerSec) cacheA.min_ttl cacheA.max_ttl ∧
      cacheA.min_ttl ≤ cacheA.effective_ttl (some 10) ∧
      cacheA.effective_ttl (some 10) ≤ cacheA.max_ttl) ∧
    cacheA.effective_ttl (some 10) = 60 * nsPerSec ∧
    cacheA.effective_ttl (some 999999) = 3600 * nsPerSec :=
  ⟨rfl, by decide, put_ttl_clamped cacheA [1] [9] (some 10) 0 rfl (by decide),
    by decide, by decide⟩

/-- A cache holding one entry (inserted at time 0 with a 1-second TTL) whose
TTL has elapsed by time `3 * nsPerSec`. -/
def cacheExpired : DnsCache :=
  ⟨true, [(generate_cache_key [1], ⟨[7, 7], 0, nsPerSec⟩)], 10,
    60 * nsPerSec, 3600 * nsPerSec⟩

/-- C4: a `get` on an entry whose TTL has elapsed is a miss, the `get` does
not remove the entry (the map, read under the read lock, is unchanged and
still holds it), and a sweep (`cleanup`) does reclaim it. -/
theorem expired_entry_get_miss (c : DnsCache) (q : List Nat) (e : CacheEntry)
    (now : Nat)
    (hen : c.enabled = true)
    (hnd : (c.cache.map Prod.fst).Nodup)
    (hf : mapFind (generate_cache_key q) c.cache = some e)
    (he : e.is_expired now = true) :
    c.get q now = none ∧
    mapFind (generate_cache_key q) c.cache = some e ∧
    mapFind (generate_cache_key q) (c.cleanup now).cache = none := by
  refine ⟨?_, hf, ?_⟩
  · simp [DnsCache.get, hen, hf, he]
  · simp only [DnsCache.cleanup, hen, Bool.not_true, Bool.false_eq_true,
      if_false]
    exact mapFind_cleanup_of_expired _ _ _ _ hnd hf he

theorem expired_entry_get_miss_witness :
    cacheExpired.enabled = true ∧
    (cacheExpired.cache.map Prod.fst).Nodup ∧
    mapFind (generate_cache_key [1]) cacheExpired.cache
      = some ⟨[7, 7], 0, nsPerSec⟩ ∧
    CacheEntry.is_expired ⟨[7, 7], 0, nsPerSec⟩ (3 * nsPerSec) = true ∧
    (cacheExpired.get [1] (3 * nsPerSec) = none ∧
      mapFind (generate_cache_key [1]) cacheExpired.cache
        = some ⟨[7, 7], 0, nsPerSec⟩ ∧
      mapFind (generate_cache_key [1])
        (cacheExpired.cleanup (3 * nsPerSec)).cache = none) :=
  ⟨rfl, by decide, by decide, by decide,
    expired_entry_get_miss cacheExpired [1] ⟨[7, 7], 0, nsPerSec⟩
      (3 * nsPerSec) rfl (by decide) (by decide) (by decide)⟩

/-! ## Capacity bound (C2) -/

theorem length_mapInsert_le (k : String) (v : CacheEntry)
    (m : List (String × CacheEntry)) :
    (mapInsert k v m).length ≤ m.length + 1 := by
  simp only [mapInsert, List.length_cons]
  exact Nat.succ_le_succ (List.length_filter_le _ _)

theorem evictForCapacity_length_lt (m : List (String × CacheEntry))
    (max_size now : Nat) (hmax : 1 ≤ max_size) (hsz : m.length ≤ max_size) :
    (evictForCapacity m max_size now).length < max_size := by
  have hcl : (cleanup_cache m now).length ≤ m.length := List.length_filter_le _ _
  unfold evictForCapacity
  by_cases h1 : m.length ≥ max_size
  · rw [if_pos h1]
    by_cases h2 : (cleanup_cache m now).length ≥ max_size
    · rw [if_pos h2]
      cases hs : cleanup_cache m now with
      | nil => simpa using hmax
      | cons p rest =>
        have hlen : (cleanup_cache m now).length = rest.length + 1 := by
          rw [hs]; rfl
        simp only [List.length_cons]
        omega
    · rw [if_neg h2]; omega
  · rw [if_neg h1]; omega

theorem put_length_le (c : DnsCache) (q r : List Nat) (hint : Option Nat)
    (now : Nat) (hmax : 1 ≤ c.max_size) (hsz : c.cache.length ≤ c.max_size) :
    (c.put q r hint now).cache.length ≤ c.max_size := by
  unfold DnsCache.put
  by_cases hen : c.enabled
  · simp only [hen, Bool.not_true, Bool.false_eq_true, if_false]
    have h1 := length_mapInsert_le (generate_cache_key q)
      ⟨r, now, c.effective_ttl hint⟩ (evictForCapacity c.cache c.max_size now)
    have h2 := evictForCapacity_length_lt c.cache c.max_size now hmax hsz
    omega
  · simp only [Bool.not_eq_true] at hen
    simp [hen, hsz]

theorem put_max_size_eq (c : DnsCache) (q r : List Nat) (hint : Option Nat)
    (now : Nat) : (c.put q r hint now).max_size = c.max_size := by
  unfold DnsCache.put; split <;> rfl

/-- A sequence of `put` operations, each given as
(query, response, ttl hint, timestamp). -/
def putSeq (c : DnsCache)
    (ops : List (List Nat × List Nat × Option Nat × Nat)) : DnsCache :=
  ops.foldl (fun acc op => acc.put op.1 op.2.1 op.2.2.1 op.2.2.2) c

/-- C2 (amended: requires `max_size ≥ 1`): if the cache size is at most
`max_size`, it is still at most `max_size` after any `put`, and after any
sequence of `put` operations — in particular after inserting
`max_size + 1` distinct non-expired keys. With `max_size = 0` the claim as
stated fails: `put` still inserts, leaving one resident entry (see the
counterexample). -/
theorem put_size_bound (c : DnsCache) (q r : List Nat) (hint : Option Nat)
    (now : Nat) (ops : List (List Nat × List Nat × Option Nat × Nat))
    (hmax : 1 ≤ c.max_size) (hsz : c.cache.length ≤ c.max_size) :
    (c.put q r hint now).cache.length ≤ c.max_size ∧
    (putSeq c ops).cache.length ≤ c.max_size := by
  refine ⟨put_length_le c q r hint now hmax hsz, ?_⟩
  induction ops generalizing c with
  | nil => exact hsz
  | cons op rest ih =>
    have hm := put_max_size_eq c op.1 op.2.1 op.2.2.1 op.2.2.2
    have h1 := put_length_le c op.1 op.2.1 op.2.2.1 op.2.2.2 hmax hsz
    have h2 := ih (c.put op.1 op.2.1 op.2.2.1 op.2.2.2)
      (by rw [hm]; exact hmax) (by rw [hm]; exact h1)
    rw [hm] at h2
    simpa [putSeq] using h2

/-- An enabled cache configured with `max_size = 0`. -/
def cacheMax0 : DnsCache := ⟨true, [], 0, 60 * nsPerSec, 3600 * nsPerSec⟩

/-- C2 counterexample: with `max_size = 0`, a cache whose size (0) is at
most `max_size` exceeds `max_size` after a single `put` — the capacity
block finds nothing to evict and the insert happens unconditionally. -/
theorem put_size_bound_counterexample :
    cacheMax0.cache.length ≤ cacheMax0.max_size ∧
    ¬ (cacheMax0.put [0] [1] none 0).cache.length ≤ cacheMax0.max_size := by
  decide

theorem put_size_bound_witness :
    1 ≤ cacheA.max_size ∧
    cacheA.cache.length ≤ cacheA.max_size ∧
    ((cacheA.put [1] [2] none 0).cache.length ≤ cacheA.max_size ∧
      (putSeq cacheA [([2], [3], none, 0)]).cache.length ≤ cacheA.max_size) :=
  ⟨by decide, by decide,
    put_size_bound cacheA [1] [2] none 0 [([2], [3], none, 0)]
      (by decide) (by decide)⟩

/-! ## Token bucket (C5) -/

theorem refill_self (b : RateLimitBucket) (now : Nat) (h : b.last_refill = now) :
    b.refill now = b := by
  unfold RateLimitBucket.refill
  rw [h]
  simp

theorem consumeRun_stamped (b : RateLimitBucket) (t : Nat)
    (h : b.last_refill = t) (n : Nat) :
    consumeRun b t n
      = (List.replicate (min n b.tokens) true
          ++ List.replicate (n - b.tokens) false,
         { b with tokens := b.tokens - n }) := by
  induction n generalizing b with
  | zero => simp [consumeRun]
  | succ n ih =>
    have hr : b.refill t = b := refill_self b t h
    cases htk : b.tokens with
    | zero =>
      have hc : b.try_consume t = (false, b) := by
        unfold RateLimitBucket.try_consume
        rw [hr]
        simp [htk]
      have ihb := ih b h
      simp only [consumeRun, hc, ihb, htk]
      simp [List.replicate_succ]
    | succ k =>
      have hc : b.try_consume t = (true, { b with tokens := k }) := by
        unfold RateLimitBucket.try_consume
        rw [hr]
        simp [htk]
      have ihb := ih { b with tokens := k } h
      simp only [consumeRun, hc, ihb, htk]
      simp [List.replicate_succ, Nat.succ_min_succ, Nat.succ_sub_succ]

/-- C5: a fresh bucket is full; `C` consecutive immediate admission checks
are all admitted and the `(C+1)`-th is rejected; after the bucket is empty,
waiting `d` with `floor(d_seconds * R) = 1` admits exactly one further
request; and `refill` adds `floor(elapsed_seconds * refill_rate)` whole
tokens capped at capacity, advancing `last_refill` only when at least one
whole token was added. -/
theorem rate_limit_token_bucket (C R t d : Nat) (b : RateLimitBucket)
    (now : Nat) (hC : 1 ≤ C) (h1 : nsPerSec ≤ d * R) (h2 : d * R < 2 * nsPerSec) :
    (RateLimitBucket.new C R t).tokens = C ∧
    (consumeRun (RateLimitBucket.new C R t) t C).1 = List.replicate C true ∧
    (consumeRun (RateLimitBucket.new C R t) t (C + 1)).1
      = List.replicate C true ++ [false] ∧
    (consumeRun (consumeRun (RateLimitBucket.new C R t) t (C + 1)).2
        (t + d) 2).1 = [true, false] ∧
    (b.refill now).last_refill
      = (if 0 < (now - b.last_refill) * b.refill_rate / nsPerSec then now
         else b.last_refill) ∧
    (b.refill now).tokens
      = (if 0 < (now - b.last_refill) * b.refill_rate / nsPerSec
         then min (b.tokens + (now - b.last_refill) * b.refill_rate / nsPerSec)
               b.max_tokens
         else b.tokens) := by
  have hnew : (RateLimitBucket.new C R t).last_refill = t := rfl
  refine ⟨rfl, ?_, ?_, ?_, ?_, ?_⟩
  · rw [consumeRun_stamped _ _ hnew]
    simp [RateLimitBucket.new]
  · rw [consumeRun_stamped _ _ hnew]
    have hmin : min (C + 1) C = C := Nat.min_eq_right (Nat.le_succ C)
    have hsub : C + 1 - C = 1 := by omega
    simp [RateLimitBucket.new, hmin, hsub]
  · have hempty : (consumeRun (RateLimitBucket.new C R t) t (C + 1)).2
        = ⟨0, t, C, R⟩ := by
      rw [consumeRun_stamped _ _ hnew]
      have : C - (C + 1) = 0 := by omega
      simp [RateLimitBucket.new, this]
    have hadd : d * R / nsPerSec = 1 :=
      Nat.div_eq_of_lt_le (by simpa using h1) (by simpa [Nat.succ_mul] using h2)
    have hrefill : RateLimitBucket.refill ⟨0, t, C, R⟩ (t + d) = ⟨1, t + d, C, R⟩ := by
      unfold RateLimitBucket.refill
      simp only [Nat.add_sub_cancel_left, hadd]
      simp [Nat.min_eq_left hC]
    have hc1 : RateLimitBucket.try_consume ⟨0, t, C, R⟩ (t + d)
        = (true, ⟨0, t + d, C, R⟩) := by
      unfold RateLimitBucket.try_consume
      rw [hrefill]
      simp
    have hc2 : RateLimitBucket.try_consume ⟨0, t + d, C, R⟩ (t + d)
        = (false, ⟨0, t + d, C, R⟩) := by
      unfold RateLimitBucket.try_consume
      rw [refill_self _ _ rfl]
      simp
    rw [hempty]
    simp [consumeRun, hc1, hc2]
  · unfold RateLimitBucket.refill
    split
    · rename_i hpos
      rw [if_pos hpos]
    · rename_i hpos
      rw [if_neg hpos]
  · unfold RateLimitBucket.refill
    split
    · rename_i hpos
      rw [if_pos hpos]
    · rename_i hpos
      rw [if_neg hpos]

theorem rate_limit_token_bucket_witness :
    1 ≤ 2 ∧ nsPerSec ≤ nsPerSec * 1 ∧ nsPerSec * 1 < 2 * nsPerSec ∧
    ((RateLimitBucket.new 2 1 0).tokens = 2 ∧
      (consumeRun (RateLimitBucket.new 2 1 0) 0 2).1 = List.replicate 2 true ∧
      (consumeRun (RateLimitBucket.new 2 1 0) 0 (2 + 1)).1
        = List.replicate 2 true ++ [false] ∧
      (consumeRun (consumeRun (RateLimitBucket.new 2 1 0) 0 (2 + 1)).2
          (0 + nsPerSec) 2).1 = [true, false] ∧
      (RateLimitBucket.refill ⟨3, 5, 4, 7⟩ 5).last_refill
        = (if 0 < (5 - (5 : Nat)) * 7 / nsPerSec then 5
           else (5 : Nat)) ∧
      (RateLimitBucket.refill ⟨3, 5, 4, 7⟩ 5).tokens
        = (if 0 < (5 - (5 : Nat)) * 7 / nsPerSec
           then min (3 + (5 - (5 : Nat)) * 7 / nsPerSec) 4
           else 3)) :=
  ⟨by decide, by decide, by decide,
    rate_limit_token_bucket 2 1 0 nsPerSec ⟨3, 5, 4, 7⟩ 5
      (by decide) (by decide) (by decide)⟩

/-! ## Resolver failover (C6, C7, C10) -/

theorem resolveLoop_isSome (net : Network) :
    ∀ (fuel : Nat) (r : DnsResolver),
      r.current_upstream < r.upstreams.length →
      (resolveLoop net r fuel).isSome := by
  intro fuel
  induction fuel with
  | zero => intro r _; simp [resolveLoop]
  | succ fuel ih =>
    intro r h
    have hu : r.upstreams.get? r.current_upstream
        = some (r.upstreams.get ⟨r.current_upstream, h⟩) := List.get?_eq_get h
    have hn : 0 < r.upstreams.length := Nat.lt_of_le_of_lt (Nat.zero_le _) h
    simp only [resolveLoop, hu]
    cases hq : query_upstream net (r.upstreams.get ⟨r.current_upstream, h⟩) with
    | ok resp => simp
    | error e =>
      have hlt : (r.current_upstream + 1) % r.upstreams.length
          < r.upstreams.length := Nat.mod_lt _ hn
      have hs := ih { r with current_upstream :=
        (r.current_upstream + 1) % r.upstreams.length } hlt
      obtain ⟨⟨res, rf, tr⟩, hx⟩ := Option.isSome_iff_exists.mp hs
      simp [hx]

theorem resolveLoop_head (net : Network) (r : DnsResolver) (fuel : Nat)
    (h : r.current_upstream < r.upstreams.length) :
    (resolveLoop net r (fuel + 1)).bind (fun out => out.2.2.head?)
      = some r.current_upstream := by
  have hu : r.upstreams.get? r.current_upstream
      = some (r.upstreams.get ⟨r.current_upstream, h⟩) := List.get?_eq_get h
  have hn : 0 < r.upstreams.length := Nat.lt_of_le_of_lt (Nat.zero_le _) h
  simp only [resolveLoop, hu]
  cases hq : query_upstream net (r.upstreams.get ⟨r.current_upstream, h⟩) with
  | ok resp => simp
  | error e =>
    have hlt : (r.current_upstream + 1) % r.upstreams.length
        < r.upstreams.length := Nat.mod_lt _ hn
    have hs := resolveLoop_isSome net fuel { r with current_upstream :=
      (r.current_upstream + 1) % r.upstreams.length } hlt
    obtain ⟨⟨res, rf, tr⟩, hx⟩ := Option.isSome_iff_exists.mp hs
    simp [hx]

/-- C6: with three upstreams and the cursor on the first, when the first
two attempts fail and the third succeeds, `resolve` returns the third's
response, visits indices 0, 1, 2, and leaves the cursor at index 2 (it
advances only on failure); a subsequent `resolve` (under any network
behavior) attempts index 2 first. -/
theorem resolver_failover (a b c : UpstreamConfig) (net net2 : Network)
    (resp : List Nat) (ea eb : ResolverError)
    (ha : query_upstream net a = .error ea)
    (hb : query_upstream net b = .error eb)
    (hc : query_upstream net c = .ok resp) :
    DnsResolver.resolve ⟨[a, b, c], 0⟩ net
      = some (.ok resp, ⟨[a, b, c], 2⟩, [0, 1, 2]) ∧
    (DnsResolver.resolve ⟨[a, b, c], 2⟩ net2).bind
      (fun out => out.2.2.head?) = some 2 := by
  constructor
  · simp [DnsResolver.resolve, resolveLoop, ha, hb, hc]
  · exact resolveLoop_head net2 ⟨[a, b, c], 2⟩ 2 (by simp)

/-- A simple upstream for concrete instantiations. -/
def upstreamU (i : Nat) : UpstreamConfig := ⟨"u", i, .udp, 1, 5⟩

/-- A network behavior failing on upstream addresses below 2, succeeding
with response `[42]` otherwise. -/
def netFailBelow2 : Network := fun u =>
  if u.addr < 2 then .error .Timeout else .ok [42]

theorem resolver_failover_witness :
    query_upstream netFailBelow2 (upstreamU 0) = .error .Timeout ∧
    query_upstream netFailBelow2 (upstreamU 1) = .error .Timeout ∧
    query_upstream netFailBelow2 (upstreamU 2) = .ok [42] ∧
    (DnsResolver.resolve ⟨[upstreamU 0, upstreamU 1, upstreamU 2], 0⟩ netFailBelow2
        = some (.ok [42], ⟨[upstreamU 0, upstreamU 1, upstreamU 2], 2⟩, [0, 1, 2]) ∧
      (DnsResolver.resolve ⟨[upstreamU 0, upstreamU 1, upstreamU 2], 2⟩
          netFailBelow2).bind (fun out => out.2.2.head?) = some 2) :=
  ⟨rfl, rfl, rfl,
    resolver_failover (upstreamU 0) (upstreamU 1) (upstreamU 2)
      netFailBelow2 netFailBelow2 [42] .Timeout .Timeout rfl rfl rfl⟩

theorem resolveLoop_all_fail (net : Network) (us : List UpstreamConfig)
    (hfail : ∀ u ∈ us, ∃ e, query_upstream net u = .error e) :
    ∀ (fuel c : Nat), c < us.length →
      resolveLoop net ⟨us, c⟩ fuel
        = some (.error .AllUpstreamsUnavailable,
            ⟨us, (c + fuel) % us.length⟩,
            (List.range fuel).map fun i => (c + i) % us.length) := by
  intro fuel
  induction fuel with
  | zero =>
    intro c hc
    simp [resolveLoop, Nat.mod_eq_of_lt hc]
  | succ fuel ih =>
    intro c hc
    have hn : 0 < us.length := Nat.lt_of_le_of_lt (Nat.zero_le _) hc
    have hu : us.get? c = some (us.get ⟨c, hc⟩) := List.get?_eq_get hc
    obtain ⟨e, he⟩ := hfail (us.get ⟨c, hc⟩) (us.get_mem _ _)
    have hc1 : (c + 1) % us.length < us.length := Nat.mod_lt _ hn
    have ihr := ih ((c + 1) % us.length) hc1
    simp only [resolveLoop, hu, he, ihr]
    have hcur : ((c + 1) % us.length + fuel) % us.length
        = (c + (fuel + 1)) % us.length := by
      rw [Nat.mod_add_mod]
      have : c + 1 + fuel = c + (fuel + 1) := by omega
      rw [this]
    have htr : (List.range (fuel + 1)).map (fun i => (c + i) % us.length)
        = c :: (List.range fuel).map
            (fun i => ((c + 1) % us.length + i) % us.length) := by
      rw [List.range_succ_eq_map, List.map_cons, List.map_map]
      congr 1
      · exact Nat.mod_eq_of_lt hc
      · apply List.map_congr_left
        intro i _
        simp only [Function.comp]
        rw [Nat.mod_add_mod]
        have : c + 1 + i = c + (i + 1) := by omega
        rw [this]
    rw [hcur, htr]

theorem trace_nodup (c n : Nat) :
    ((List.range n).map fun i => (c + i) % n).Nodup := by
  refine List.Nodup.map_on ?_ (List.nodup_range n)
  intro i hi j hj hij
  rw [List.mem_range] at hi hj
  have h2 : i % n = j % n := Nat.ModEq.add_left_cancel' c hij
  rwa [Nat.mod_eq_of_lt hi, Nat.mod_eq_of_lt hj] at h2

/-- C7: when every upstream attempt fails, `resolve` on a non-empty
upstream list returns `AllUpstreamsUnavailable` after exactly
`len(upstreams)` attempts, visiting each configured upstream index at most
once (the visit trace has no duplicates). -/
theorem resolver_exhaustion (r : DnsResolver) (net : Network)
    (hcur : r.current_upstream < r.upstreams.length)
    (hfail : ∀ u ∈ r.upstreams, ∃ e, query_upstream net u = .error e) :
    ∃ rf tr,
      r.resolve net = some (.error .AllUpstreamsUnavailable, rf, tr) ∧
      tr.length = r.upstreams.length ∧
      tr.Nodup := by
  obtain ⟨us, c⟩ := r
  refine ⟨⟨us, (c + us.length) % us.length⟩,
    (List.range us.length).map (fun i => (c + i) % us.length),
    resolveLoop_all_fail net us hfail us.length c hcur, ?_, trace_nodup c _⟩
  simp

/-- A network behavior that times out on every upstream. -/
def netAllFail : Network := fun _ => .error .Timeout

theorem resolver_exhaustion_witness :
    (0 : Nat) < (DnsResolver.new [upstreamU 0, upstreamU 1]).upstreams.length ∧
    (∀ u ∈ (DnsResolver.new [upstreamU 0, upstreamU 1]).upstreams,
      ∃ e, query_upstream netAllFail u = .error e) ∧
    (∃ rf tr,
      (DnsResolver.new [upstreamU 0, upstreamU 1]).resolve netAllFail
        = some (.error .AllUpstreamsUnavailable, rf, tr) ∧
      tr.length = (DnsResolver.new [upstreamU 0, upstreamU 1]).upstreams.length ∧
      tr.Nodup) :=
  ⟨by decide,
    by
      intro u hu
      simp [DnsResolver.new] at hu
      rcases hu with rfl | rfl <;> exact ⟨.Timeout, rfl⟩,
    resolver_exhaustion (DnsResolver.new [upstreamU 0, upstreamU 1]) netAllFail
      (by decide)
      (by
        intro u hu
        simp [DnsResolver.new] at hu
        rcases hu with rfl | rfl <;> exact ⟨.Timeout, rfl⟩)⟩

/-- C10: with an empty upstream list, `resolve` terminates immediately with
`AllUpstreamsUnavailable`: the `for` loop runs `0..0` iterations, so the
loop body — including the upstream indexing and the `% len` cursor
arithmetic — is never executed (the visit trace is empty, the state is
untouched, and no panic branch (`none`) is reached). -/
theorem resolver_empty_upstreams (cursor : Nat) (net : Network) :
    DnsResolver.resolve ⟨[], cursor⟩ net
      = some (.error .AllUpstreamsUnavailable, ⟨[], cursor⟩, []) := rfl

/-! ## UDP transport (C9) -/

/-- C9: any datagram that arrives within the timeout is returned verbatim,
truncated to the number of bytes actually received
(`min 512 bytes.length`, the 512-byte buffer bounding a single receive) —
with no hypothesis on the reply's contents, length, or source address:
no transaction-ID or source validation occurs. -/
theorem udp_reply_verbatim (u : UpstreamConfig) (q bytes : List Nat)
    (src : Nat) :
    query_udp u q (.datagram bytes src) = .ok (bytes.take 512) ∧
    (bytes.take 512).length = min 512 bytes.length := by
  constructor
  · simp only [query_udp, recvIntoBuffer, List.length_replicate]
    congr 1
    have h1 : (bytes.take (min bytes.length 512)).length
        = min bytes.length 512 := by
      rw [List.length_take]; omega
    calc (bytes.take (min bytes.length 512)
            ++ (List.replicate 512 0).drop (min bytes.length 512)).take
              (min bytes.length 512)
        = (bytes.take (min bytes.length 512)
            ++ (List.replicate 512 0).drop (min bytes.length 512)).take
              (bytes.take (min bytes.length 512)).length := by rw [h1]
      _ = bytes.take (min bytes.length 512) := List.take_left _ _
      _ = bytes.take 512 := by rw [List.take_eq_take]; omega
  · rw [List.length_take]

/-! ## Pipeline short-circuit (C8) -/

/-- C8: stages run strictly in registration order; if every stage before
`s` continues (`Ok(None)`) and `s` itself does not continue (it
short-circuits or rejects), then `s`'s outcome propagates to the caller,
every stage before `s` has executed (its state stepped, its log emitted),
and no stage after `s` executes — the tail `l2` is returned untouched, so
e.g. a Metrics stage placed after a rejecting RateLimit stage does not
increment its `requests` counter, while a Logging stage placed before it
has observed the request. -/
theorem pipeline_first_stop (l1 l2 : List Stage) (s : Stage)
    (request : List Nat) (client now : Nat)
    (hcont : ∀ t ∈ l1, (t.handle_request request client now).1 = .ok none)
    (hstop : (s.handle_request request client now).1 ≠ .ok none) :
    pipeline_handle_request (l1 ++ s :: l2) request client now
      = ((s.handle_request request client now).1,
         l1.map (fun t => (t.handle_request request client now).2.1)
           ++ (s.handle_request request client now).2.1 :: l2,
         (l1.map (fun t => (t.handle_request request client now).2.2)).flatten
           ++ (s.handle_request request client now).2.2) := by
  induction l1 with
  | nil =>
    rcases hs : s.handle_request request client now with ⟨res, s1, ev⟩
    rw [hs] at hstop
    simp only [List.nil_append, pipeline_handle_request, hs, List.map_nil,
      List.flatten, List.append_nil]
    cases res with
    | ok o =>
      cases o with
      | none => exact absurd rfl hstop
      | some r => rfl
    | error e => rfl
  | cons t rest ih =>
    have ht := hcont t (by simp)
    rcases hh : t.handle_request request client now with ⟨res, t1, ev⟩
    rw [hh] at ht
    simp only at ht
    subst ht
    simp only [List.cons_append, pipeline_handle_request, hh, List.append_eq]
    rw [ih (fun x hx => hcont x (by simp [hx]))]
    simp [List.flatten, List.append_assoc, hh]

/-- A rate-limit state whose single bucket (client address 7) has no
tokens left and was last refilled at time 0. -/
def rlDrained : RateLimitState := ⟨true, [(7, ⟨0, 0, 5, 1⟩)], 5, 1⟩

/-- Zeroed metrics counters. -/
def metrics0 : MetricsCounters := ⟨0, 0, 0, 0⟩

theorem pipeline_first_stop_witness :
    (∀ t ∈ [Stage.logging true],
      (t.handle_request [1, 2, 3] 7 0).1 = .ok none) ∧
    ((Stage.rateLimit rlDrained).handle_request [1, 2, 3] 7 0).1 ≠ .ok none ∧
    pipeline_handle_request
        ([Stage.logging true] ++ Stage.rateLimit rlDrained
          :: [Stage.metrics true metrics0]) [1, 2, 3] 7 0
      = (.error .RateLimited,
         [Stage.logging true, Stage.rateLimit rlDrained,
          Stage.metrics true metrics0],
         [.request 7 3, .rateLimited 7]) :=
  ⟨by decide, by decide,
    (pipeline_first_stop [Stage.logging true] [Stage.metrics true metrics0]
      (Stage.rateLimit rlDrained) [1, 2, 3] 7 0 (by decide) (by decide)).trans
      (by decide)⟩

end DnsProxy

